import Mathlib

/-!
# Verification of the emoji slot allocator (`ditto/db/emoji.py`)

A shallow embedding of the emoji-cache allocation/eviction layer of the
Ditto bot.  The external platform (Discord guilds and their custom emoji)
and the persistent store (the `Emoji` and `UserEmoji` tables) are modelled
as explicit state; each method of `EmojiCacheMixin` becomes a pure state
transformer returning `Except` for the exceptions it raises.

Python exceptions map to the `EmojiError` type, keeping the
`ValueError` / `RuntimeError` class distinction that matters for the
`except RuntimeError` handler in `fetch_user_emoji`.

All code is translated from `src/ditto/db/emoji.py`.  Two pieces of the
repository are referenced there but are not available in the sources
(`ditto/db/tables.py` with the table schema, `ditto/config.py` with the
`CONFIG.EMOJI` configuration); the definitions that depend on them carry a
`Modelled from the spec:` note.
-/

/-- A configured container (guild): opaque id and fixed capacity for
non-animated custom emoji (`guild.emoji_limit`). -/
structure Guild where
  id : Nat
  emoji_limit : Nat
deriving DecidableEq, Repr

/-- A custom emoji living on the external platform: its id, the guild it
belongs to, and whether it is animated (`_find_guild` only counts
non-animated emoji against the capacity). -/
structure PlatformEmoji where
  id : Nat
  guildId : Nat
  animated : Bool
deriving DecidableEq, Repr

/-- The external platform state: all emoji the bot can see, across all
guilds (`self.get_emoji` looks an emoji up by id over this collection;
`guild.emojis` is the sub-collection with matching `guildId`). -/
structure ExtState where
  emojis : List PlatformEmoji
deriving DecidableEq, Repr

/-- A row of the `Emoji` table: `(emoji_id, guild_id, last_fetched)`.
Timestamps are abstracted as naturals. -/
structure EmojiRecord where
  emojiId : Nat
  guildId : Nat
  lastFetched : Nat
deriving DecidableEq, Repr

/-- A row of the `UserEmoji` table: the owner binding `(user_id, emoji_id)`. -/
structure UserEmojiRecord where
  userId : Nat
  emojiId : Nat
deriving DecidableEq, Repr

/-- The persistent store: the two tables, each in storage (insertion)
order. -/
structure Store where
  emojis : List EmojiRecord
  userEmojis : List UserEmojiRecord
deriving DecidableEq, Repr

/-- Modelled from the spec: `ditto/config.py` is not among the sources.
Per the spec the configuration supplies the fixed pool of eligible
containers, the `leave_free` threshold ("minimum free slots required
before a container is considered available", hence a natural count of
slots), and the not-found sentinel emoji `CONFIG.EMOJI.NOT_FOUND`. -/
structure Config where
  guilds : List Guild
  leave_free : Nat
  not_found : PlatformEmoji
deriving DecidableEq, Repr

/-- The exceptions raised by `db/emoji.py`, tagged by Python class.
`notCached` is the `ValueError` "Emoji with ID … not in cache";
`desynced` is the `RuntimeError` "Emoji in cache was deleted.";
`cacheEmptyAndFull` is the `RuntimeError` "Emoji cache simultaneously
empty and full."; `sampleError` is the `ValueError` that
`random.sample` raises when the weighted population is empty. -/
inductive EmojiError where
  | notCached (id : Nat)
  | desynced
  | cacheEmptyAndFull
  | sampleError
deriving DecidableEq, Repr

/-- Whether the exception is a Python `RuntimeError` (the class caught by
`fetch_user_emoji`'s handler). -/
def EmojiError.isRuntimeError : EmojiError → Bool
  | .notCached _ => false
  | .desynced => true
  | .cacheEmptyAndFull => true
  | .sampleError => false

/-- Store events, used to record the order of store operations inside
`fetch_emoji` (read of the record row, write of `last_fetched`, the
external liveness check `self.get_emoji`, deletion of the row). -/
inductive Event where
  | fetchRow (id : Nat)
  | updateRecord (id now : Nat)
  | validate (id : Nat)
  | deleteRecord (id : Nat)
deriving DecidableEq, Repr

/-- `sum(not e.animated for e in guild.emojis)`: the number of
non-animated emoji the guild currently holds. -/
def usedCount (ext : ExtState) (g : Guild) : Nat :=
  (ext.emojis.filter (fun e => e.guildId == g.id && !e.animated)).length

/-- `total_free = guild.emoji_limit - sum(not e.animated for e in guild.emojis)`
(Python integer subtraction, so the value may be negative). -/
def totalFree (ext : ExtState) (g : Guild) : Int :=
  (g.emoji_limit : Int) - (usedCount ext g : Int)

/-- The `free_spaces` dict of `_find_guild`: the configured guilds with
`total_free > CONFIG.EMOJI.LEAVE_FREE`, each with its `total_free`
count, in configuration (= insertion) order. -/
def freeSpaces (cfg : Config) (ext : ExtState) : List (Guild × Int) :=
  cfg.guilds.filterMap fun g =>
    let f := totalFree ext g
    if (cfg.leave_free : Int) < f then some (g, f) else none

/-- The weighted population of
`random.sample(list(free_spaces.keys()), counts=list(free_spaces.values()), k=1)`:
each guild repeated `total_free` times. -/
def weightedPopulation (l : List (Guild × Int)) : List Guild :=
  l.flatMap fun p => List.replicate p.2.toNat p.1

/-- `Emoji.fetch_row(connection, order_by=(Emoji.last_fetched, "ASC"))`:
the first row, in storage order, whose `last_fetched` is minimal
(`ORDER BY … ASC` with stable tie-breaking by storage order). -/
def oldestRecord (s : Store) : Option EmojiRecord :=
  match s.emojis with
  | [] => none
  | r :: rs => some (rs.foldl (fun best x =>
      if x.lastFetched < best.lastFetched then x else best) r)

/-- `Emoji.fetch_row(connection, emoji_id=emoji_id)`: the first row with
the given primary key. -/
def fetchEmojiRow (s : Store) (eid : Nat) : Option EmojiRecord :=
  s.emojis.find? (fun r => r.emojiId == eid)

/-- `UserEmoji.fetch_row(connection, user_id=user_id)`: the first binding
for the given owner. -/
def fetchUserEmojiRow (s : Store) (uid : Nat) : Option UserEmojiRecord :=
  s.userEmojis.find? (fun b => b.userId == uid)

/-- `Emoji.update_record(connection, record, last_fetched=now)`:
SQL `UPDATE … WHERE emoji_id = …`, setting `last_fetched` on the rows
with that primary key. -/
def updateLastFetched (s : Store) (eid now : Nat) : Store :=
  { s with emojis := s.emojis.map fun r =>
      if r.emojiId == eid then { r with lastFetched := now } else r }

/-- `Emoji.delete_record(connection, record)`: SQL `DELETE … WHERE
emoji_id = …` on the `Emoji` table.

Modelled from the spec: the table schema (`ditto/db/tables.py`) is not
among the sources.  Per the spec, when an asset record is deleted any
owner binding referencing the evicted `asset_id` is deleted with it
("delete its record, delete any owner binding referencing it";
"superseded when the asset is evicted (binding is deleted, forcing
recreation on next fetch)"), so the owner-binding table cascades on the
asset-record delete. -/
def deleteEmojiRecord (s : Store) (eid : Nat) : Store :=
  { emojis := s.emojis.filter fun r => r.emojiId ≠ eid,
    userEmojis := s.userEmojis.filter fun b => b.emojiId ≠ eid }

/-- `UserEmoji.delete_record(connection, record)`: SQL `DELETE … WHERE
user_id = …` on the owner-binding table. -/
def deleteUserEmojiRecord (s : Store) (uid : Nat) : Store :=
  { s with userEmojis := s.userEmojis.filter fun b => b.userId ≠ uid }

/-- `self.get_emoji(emoji_id)`: look the emoji up on the platform. -/
def getEmoji (ext : ExtState) (eid : Nat) : Option PlatformEmoji :=
  ext.emojis.find? (fun e => e.id == eid)

/-- `emoji.delete()`: remove the emoji object from its guild. -/
def extDeleteEmoji (ext : ExtState) (eid : Nat) : ExtState :=
  { emojis := ext.emojis.eraseP (fun e => e.id == eid) }

/-- `EmojiCacheMixin.delete_emoji`: fetch the row by id (raising
`ValueError` when absent), best-effort delete the live platform emoji
(skipped when `get_emoji` finds none), then delete the row. -/
def delete_emoji (eid : Nat) (s : Store) (ext : ExtState) :
    Except EmojiError Unit × Store × ExtState :=
  match fetchEmojiRow s eid with
  | none => (.error (.notCached eid), s, ext)
  | some _ =>
    let ext' := match getEmoji ext eid with
      | some _ => extDeleteEmoji ext eid
      | none => ext
    (.ok (), deleteEmojiRecord s eid, ext')

/-- The body of `EmojiCacheMixin._find_guild`, with the recursion
structured on explicit fuel (each recursive call is preceded by the
deletion of a row that was just fetched, so the row count strictly
decreases; `find_guild` below supplies fuel `row count + 1`, which the
fuel-irrelevance theorem shows is enough).  The random weighted draw is
determinised by the `seed` argument: the element of the weighted
population at index `seed % population size`. -/
def findGuildGo (cfg : Config) (seed : Nat) :
    Nat → Store → ExtState → Except EmojiError Guild × Store × ExtState
  | 0, s, ext => (.error .cacheEmptyAndFull, s, ext)
  | fuel + 1, s, ext =>
    let fs := freeSpaces cfg ext
    if fs.isEmpty then
      match oldestRecord s with
      | none => (.error .cacheEmptyAndFull, s, ext)
      | some r =>
        match delete_emoji r.emojiId s ext with
        | (.error e, s', ext') => (.error e, s', ext')
        | (.ok _, s', ext') => findGuildGo cfg seed fuel s' ext'
    else
      match weightedPopulation fs with
      | [] => (.error .sampleError, s, ext)
      | g :: gs => (.ok ((g :: gs).getD (seed % (g :: gs).length) g), s, ext)

/-- `EmojiCacheMixin._find_guild` (called `select_container` in the
spec): compute the guilds with strictly more than `LEAVE_FREE` free
non-animated slots; if any, return one at random weighted by its free
count; otherwise delete the emoji with the oldest `last_fetched`
(raising `RuntimeError` when no record exists) and retry. -/
def find_guild (cfg : Config) (seed : Nat) (s : Store) (ext : ExtState) :
    Except EmojiError Guild × Store × ExtState :=
  findGuildGo cfg seed (s.emojis.length + 1) s ext

/-- `EmojiCacheMixin.fetch_emoji`: a `None` id returns the configured
not-found sentinel without touching the store.  Otherwise fetch the row
(raising `ValueError` when absent), update `last_fetched` to `now`,
then validate liveness through `get_emoji`; when the platform emoji is
gone, delete the row and raise `RuntimeError`.  The third component is
the trace of store operations performed, in order. -/
def fetch_emoji (cfg : Config) :
    Option Nat → Nat → Store → ExtState →
      Except EmojiError PlatformEmoji × Store × List Event
  | none, _now, s, _ext => (.ok cfg.not_found, s, [])
  | some eid, now, s, ext =>
    match fetchEmojiRow s eid with
    | none => (.error (.notCached eid), s, [.fetchRow eid])
    | some _ =>
      let s1 := updateLastFetched s eid now
      match getEmoji ext eid with
      | none =>
        (.error .desynced, deleteEmojiRecord s1 eid,
         [.fetchRow eid, .updateRecord eid now, .validate eid, .deleteRecord eid])
      | some e =>
        (.ok e, s1, [.fetchRow eid, .updateRecord eid now, .validate eid])

/-- `EmojiCacheMixin.create_emoji`: pick a guild through `_find_guild`,
create the platform emoji there (the platform assigns the fresh id
`newId`; non-animated), then insert the `Emoji` row.

Modelled from the spec: the `Emoji.insert` call passes only `emoji_id`
and `guild_id`; the `last_fetched` default lives in the missing table
schema, and per the spec the record tracks "when it was last used", so
the new row's `last_fetched` is the creation instant `now`. -/
def create_emoji (cfg : Config) (now newId seed : Nat) (s : Store)
    (ext : ExtState) : Except EmojiError PlatformEmoji × Store × ExtState :=
  match find_guild cfg seed s ext with
  | (.error e, s', ext') => (.error e, s', ext')
  | (.ok g, s', ext') =>
    let em : PlatformEmoji := { id := newId, guildId := g.id, animated := false }
    (.ok em,
     { s' with emojis := s'.emojis ++ [⟨newId, g.id, now⟩] },
     { emojis := ext'.emojis ++ [em] })

/-- `UserEmoji.insert(connection, emoji_id=…, user_id=…)`.

Modelled from the spec: the insert mode lives in the missing table
schema; per the spec the owner-binding table uses "an update-on-conflict
insert mode … (insert-or-replace semantics keyed on owner)". -/
def upsertUserEmoji (s : Store) (uid eid : Nat) : Store :=
  { s with userEmojis :=
      s.userEmojis.filter (fun b => b.userId ≠ uid) ++ [⟨uid, eid⟩] }

/-- `EmojiCacheMixin.create_user_emoji`: derive the name and avatar image
(irrelevant to the allocator state), create the emoji, then insert the
owner binding. -/
def create_user_emoji (cfg : Config) (uid now newId seed : Nat) (s : Store)
    (ext : ExtState) : Except EmojiError PlatformEmoji × Store × ExtState :=
  match create_emoji cfg now newId seed s ext with
  | (.error e, s', ext') => (.error e, s', ext')
  | (.ok em, s', ext') => (.ok em, upsertUserEmoji s' uid em.id, ext')

/-- `EmojiCacheMixin.fetch_user_emoji`: a `None` user delegates to
`fetch_emoji None`.  Otherwise fetch the owner binding; when present,
try `fetch_emoji` on the bound id, catching `RuntimeError` (and only
that class) to delete the stale binding and fall through to creation;
when absent, fall through to creation directly. -/
def fetch_user_emoji (cfg : Config) :
    Option Nat → Nat → Nat → Nat → Store → ExtState →
      Except EmojiError PlatformEmoji × Store × ExtState
  | none, now, _newId, _seed, s, ext =>
    let (res, s', _) := fetch_emoji cfg none now s ext
    (res, s', ext)
  | some uid, now, newId, seed, s, ext =>
    match fetchUserEmojiRow s uid with
    | some b =>
      match fetch_emoji cfg (some b.emojiId) now s ext with
      | (.ok e, s1, _) => (.ok e, s1, ext)
      | (.error err, s1, _) =>
        if err.isRuntimeError then
          create_user_emoji cfg uid now newId seed
            (deleteUserEmojiRecord s1 uid) ext
        else (.error err, s1, ext)
    | none => create_user_emoji cfg uid now newId seed s ext

/-- The spec's description of `fetch_owner_asset` (§4.3), written from
its words rather than from the code: "null owner delegates to
`fetch_asset(null)`.  Otherwise looks up the owner binding; if present,
attempts `fetch_asset` on the bound asset — on `Desynced` failure,
deletes the stale binding and falls through to creation; on success
returns the asset.  If no binding exists, calls `create_owner_asset`."
(Failures other than `Desynced` propagate.) -/
def fetchOwnerAssetSpec (cfg : Config) :
    Option Nat → Nat → Nat → Nat → Store → ExtState →
      Except EmojiError PlatformEmoji × Store × ExtState
  | none, now, _newId, _seed, s, ext =>
    let (res, s', _) := fetch_emoji cfg none now s ext
    (res, s', ext)
  | some uid, now, newId, seed, s, ext =>
    match fetchUserEmojiRow s uid with
    | some b =>
      match fetch_emoji cfg (some b.emojiId) now s ext with
      | (.ok e, s1, _) => (.ok e, s1, ext)
      | (.error err, s1, _) =>
        if err = .desynced then
          create_user_emoji cfg uid now newId seed
            (deleteUserEmojiRecord s1 uid) ext
        else (.error err, s1, ext)
    | none => create_user_emoji cfg uid now newId seed s ext

/-- Well-formedness of the `Emoji` table: `emoji_id` is the primary key,
so rows have pairwise distinct ids. -/
def Store.wf (s : Store) : Prop :=
  s.emojis.Pairwise fun r r' => r.emojiId ≠ r'.emojiId

/-- Well-formedness of the platform state: emoji ids are globally
unique. -/
def ExtState.wf (ext : ExtState) : Prop :=
  ext.emojis.Pairwise fun e e' => e.id ≠ e'.id

instance (s : Store) : Decidable s.wf := by
  unfold Store.wf; infer_instance

instance (ext : ExtState) : Decidable ext.wf := by
  unfold ExtState.wf; infer_instance

/-!
## Basic lemmas about the store and selector helpers
-/

theorem mem_freeSpaces {cfg : Config} {ext : ExtState} {p : Guild × Int}
    (h : p ∈ freeSpaces cfg ext) :
    p.1 ∈ cfg.guilds ∧ p.2 = totalFree ext p.1 ∧ (cfg.leave_free : Int) < p.2 := by
  unfold freeSpaces at h
  simp only [List.mem_filterMap] at h
  obtain ⟨g, hg, hf⟩ := h
  by_cases hlt : (cfg.leave_free : Int) < totalFree ext g
  · simp [hlt] at hf
    subst hf
    exact ⟨hg, rfl, hlt⟩
  · simp [hlt] at hf

theorem freeSpaces_eq_nil_iff {cfg : Config} {ext : ExtState} :
    freeSpaces cfg ext = [] ↔
      ∀ g ∈ cfg.guilds, totalFree ext g ≤ (cfg.leave_free : Int) := by
  unfold freeSpaces
  rw [List.filterMap_eq_nil_iff]
  constructor
  · intro h g hg
    by_contra hlt
    have := h g hg
    simp [not_le.mp hlt] at this
  · intro h g hg
    simp [not_lt.mpr (h g hg)]

theorem weightedPopulation_ne_nil {cfg : Config} {ext : ExtState}
    (h : freeSpaces cfg ext ≠ []) : weightedPopulation (freeSpaces cfg ext) ≠ [] := by
  obtain ⟨p, rest, hp⟩ := List.exists_cons_of_ne_nil h
  have hmem : p ∈ freeSpaces cfg ext := by rw [hp]; exact List.mem_cons_self _ _
  obtain ⟨-, -, hlt⟩ := mem_freeSpaces hmem
  have hpos : 0 < p.2.toNat := by
    have : (0 : Int) < p.2 := lt_of_le_of_lt (Int.ofNat_nonneg _) hlt
    omega
  unfold weightedPopulation
  rw [hp]
  simp only [List.flatMap_cons, ne_eq, List.append_eq_nil, not_and]
  intro hrep
  exact absurd hrep (by simp [List.replicate_eq_nil_iff]; omega)

theorem mem_weightedPopulation {l : List (Guild × Int)} {g : Guild}
    (h : g ∈ weightedPopulation l) : ∃ f, (g, f) ∈ l := by
  unfold weightedPopulation at h
  simp only [List.mem_flatMap] at h
  obtain ⟨p, hp, hg⟩ := h
  rw [List.eq_of_mem_replicate hg]
  exact ⟨p.2, hp⟩

theorem getD_mem {α : Type} {l : List α} {d : α} (hd : d ∈ l) (i : Nat) :
    l.getD i d ∈ l := by
  rw [List.getD_eq_getElem?_getD]
  match h : l[i]? with
  | some x => simpa using List.getElem?_mem h
  | none => simpa using hd

theorem foldl_oldest_spec (rs : List EmojiRecord) (r : EmojiRecord) :
    (rs.foldl (fun best x => if x.lastFetched < best.lastFetched then x else best) r)
        ∈ r :: rs ∧
      ∀ y ∈ r :: rs,
        (rs.foldl (fun best x =>
          if x.lastFetched < best.lastFetched then x else best) r).lastFetched
            ≤ y.lastFetched := by
  induction rs generalizing r with
  | nil =>
    refine ⟨List.mem_cons_self _ _, ?_⟩
    intro y hy
    rw [List.mem_singleton] at hy
    simp [hy]
  | cons x rs ih =>
    simp only [List.foldl_cons]
    obtain ⟨hmem, hle⟩ := ih (if x.lastFetched < r.lastFetched then x else r)
    have hbase :
        (rs.foldl (fun best x => if x.lastFetched < best.lastFetched then x else best)
            (if x.lastFetched < r.lastFetched then x else r)).lastFetched
          ≤ (if x.lastFetched < r.lastFetched then x else r).lastFetched :=
      hle _ (List.mem_cons_self _ _)
    have hbr : (if x.lastFetched < r.lastFetched then x else r).lastFetched
        ≤ r.lastFetched := by
      by_cases hx : x.lastFetched < r.lastFetched
      · rw [if_pos hx]; omega
      · rw [if_neg hx]
    have hbx : (if x.lastFetched < r.lastFetched then x else r).lastFetched
        ≤ x.lastFetched := by
      by_cases hx : x.lastFetched < r.lastFetched
      · rw [if_pos hx]
      · rw [if_neg hx]; omega
    constructor
    · by_cases hx : x.lastFetched < r.lastFetched
      · rw [if_pos hx] at hmem ⊢
        rw [List.mem_cons] at hmem
        rcases hmem with h | h
        · rw [h]
          exact List.mem_cons_of_mem _ (List.mem_cons_self _ _)
        · exact List.mem_cons_of_mem _ (List.mem_cons_of_mem _ h)
      · rw [if_neg hx] at hmem ⊢
        rw [List.mem_cons] at hmem
        rcases hmem with h | h
        · rw [h]
          exact List.mem_cons_self _ _
        · exact List.mem_cons_of_mem _ (List.mem_cons_of_mem _ h)
    · intro y hy
      rw [List.mem_cons] at hy
      rcases hy with h | hy
      · subst h
        exact le_trans hbase hbr
      · rw [List.mem_cons] at hy
        rcases hy with h | hy
        · subst h
          exact le_trans hbase hbx
        · exact hle _ (List.mem_cons_of_mem _ hy)

theorem oldestRecord_spec {s : Store} {r : EmojiRecord}
    (h : oldestRecord s = some r) :
    r ∈ s.emojis ∧ ∀ y ∈ s.emojis, r.lastFetched ≤ y.lastFetched := by
  unfold oldestRecord at h
  match hs : s.emojis with
  | [] => rw [hs] at h; exact absurd h (by simp)
  | x :: xs =>
    rw [hs] at h
    obtain ⟨hmem, hle⟩ := foldl_oldest_spec xs x
    simp only [Option.some.injEq] at h
    exact ⟨h ▸ hmem, h ▸ hle⟩

theorem oldestRecord_eq_none_iff {s : Store} :
    oldestRecord s = none ↔ s.emojis = [] := by
  unfold oldestRecord
  match hs : s.emojis with
  | [] => simp
  | x :: xs => simp

theorem fetchEmojiRow_deleteEmojiRecord (s : Store) (eid : Nat) :
    fetchEmojiRow (deleteEmojiRecord s eid) eid = none := by
  unfold fetchEmojiRow deleteEmojiRecord
  rw [List.find?_eq_none]
  intro x hx
  have := (List.mem_filter.mp hx).2
  simpa using this

theorem fetchEmojiRow_isSome_of_mem {s : Store} {r : EmojiRecord}
    (h : r ∈ s.emojis) : ∃ r', fetchEmojiRow s r.emojiId = some r' := by
  unfold fetchEmojiRow
  have : (s.emojis.find? (fun x => x.emojiId == r.emojiId)).isSome :=
    List.find?_isSome.mpr ⟨r, h, by simp⟩
  exact Option.isSome_iff_exists.mp this

theorem delete_emoji_of_found {s : Store} {eid : Nat} {r : EmojiRecord}
    (h : fetchEmojiRow s eid = some r) (ext : ExtState) :
    ∃ ext', delete_emoji eid s ext = (.ok (), deleteEmojiRecord s eid, ext') := by
  unfold delete_emoji
  rw [h]
  exact ⟨_, rfl⟩

theorem length_filter_lt_of_mem {l : List EmojiRecord} {r : EmojiRecord}
    (h : r ∈ l) (eid : Nat) (heq : r.emojiId = eid) :
    (l.filter fun x => x.emojiId ≠ eid).length < l.length :=
  List.length_filter_lt_length_iff_exists.mpr ⟨r, h, by simp [heq]⟩

theorem length_filter_of_wf {l : List EmojiRecord} {r : EmojiRecord}
    (hwf : l.Pairwise fun a b => a.emojiId ≠ b.emojiId) (h : r ∈ l) :
    (l.filter fun x => x.emojiId ≠ r.emojiId).length + 1 = l.length := by
  induction l with
  | nil => cases h
  | cons x xs ih =>
    have hx := List.pairwise_cons.mp hwf
    rw [List.mem_cons] at h
    rcases h with rfl | hmem
    · have hself : xs.filter (fun y => y.emojiId ≠ r.emojiId) = xs :=
        List.filter_eq_self.mpr fun y hy => by
          simpa using fun hc => (hx.1 y hy) hc.symm
      simp only [List.filter_cons, hself]
      rw [if_neg (by simp)]
      simp
    · have hne : x.emojiId ≠ r.emojiId := hx.1 r hmem
      rw [List.filter_cons, if_pos (by simpa using hne)]
      simpa [List.length_cons] using ih hx.2 hmem

theorem delete_emoji_ok_length {eid : Nat} {s : Store} {ext : ExtState}
    {u : Unit} {s' : Store} {ext' : ExtState}
    (h : delete_emoji eid s ext = (.ok u, s', ext')) :
    s'.emojis.length < s.emojis.length := by
  unfold delete_emoji at h
  match hrow : fetchEmojiRow s eid with
  | none => rw [hrow] at h; simp at h
  | some r =>
    rw [hrow] at h
    have hs' : s' = deleteEmojiRecord s eid := by
      have := congrArg (fun p => p.2.1) h
      simpa using this.symm
    have hmem : r ∈ s.emojis := List.mem_of_find?_eq_some hrow
    have hid : r.emojiId = eid := by
      have := List.find?_some hrow
      simpa using this
    rw [hs']
    exact length_filter_lt_of_mem hmem eid hid

theorem findGuildGo_fuel_congr (cfg : Config) (seed : Nat) :
    ∀ f₁ : Nat, ∀ {f₂ : Nat} {s : Store} {ext : ExtState},
      s.emojis.length < f₁ → s.emojis.length < f₂ →
      findGuildGo cfg seed f₁ s ext = findGuildGo cfg seed f₂ s ext := by
  intro f₁
  induction f₁ with
  | zero => intro f₂ s ext h1 _; omega
  | succ f₁ ih =>
    intro f₂ s ext h1 h2
    match f₂ with
    | 0 => omega
    | f₂ + 1 =>
      show findGuildGo cfg seed (f₁ + 1) s ext = findGuildGo cfg seed (f₂ + 1) s ext
      unfold findGuildGo
      by_cases hfs : (freeSpaces cfg ext).isEmpty
      · rw [if_pos hfs, if_pos hfs]
        cases ho : oldestRecord s with
        | none => rfl
        | some r =>
          rcases hd : delete_emoji r.emojiId s ext with ⟨e | u, s', ext'⟩
          · simp only [hd]
          · simp only [hd]
            have hlen := delete_emoji_ok_length hd
            exact ih (by omega) (by omega)
      · rw [if_neg hfs, if_neg hfs]

theorem delete_emoji_of_oldest {s : Store} {r : EmojiRecord}
    (h : oldestRecord s = some r) (ext : ExtState) :
    ∃ ext', delete_emoji r.emojiId s ext = (.ok (), deleteEmojiRecord s r.emojiId, ext') := by
  obtain ⟨r', hr'⟩ := fetchEmojiRow_isSome_of_mem (oldestRecord_spec h).1
  exact delete_emoji_of_found hr' ext

theorem findGuildGo_error_spec (cfg : Config) (seed : Nat) :
    ∀ fuel : Nat, ∀ {s : Store} {ext : ExtState} {e : EmojiError}
      {s' : Store} {ext' : ExtState},
      s.emojis.length < fuel →
      findGuildGo cfg seed fuel s ext = (.error e, s', ext') →
      e = .cacheEmptyAndFull ∧ s'.emojis = [] ∧
        ∀ g ∈ cfg.guilds, totalFree ext' g ≤ (cfg.leave_free : Int) := by
  intro fuel
  induction fuel with
  | zero => intro s ext e s' ext' h1 _; omega
  | succ fuel ih =>
    intro s ext e s' ext' h1 heq
    unfold findGuildGo at heq
    by_cases hfs : (freeSpaces cfg ext).isEmpty
    · rw [if_pos hfs] at heq
      have hnil : freeSpaces cfg ext = [] := List.isEmpty_iff.mp hfs
      cases ho : oldestRecord s with
      | none =>
        rw [ho] at heq
        simp only [Prod.mk.injEq, Except.error.injEq] at heq
        obtain ⟨he, hs, hext⟩ := heq
        refine ⟨he.symm, ?_, ?_⟩
        · rw [← hs]
          exact oldestRecord_eq_none_iff.mp ho
        · intro g hg
          rw [← hext]
          exact (freeSpaces_eq_nil_iff.mp hnil) g hg
      | some r =>
        rw [ho] at heq
        obtain ⟨extd, hd⟩ := delete_emoji_of_oldest ho ext
        simp only [hd] at heq
        have hlen : (deleteEmojiRecord s r.emojiId).emojis.length < s.emojis.length :=
          delete_emoji_ok_length hd
        exact ih (by omega) heq
    · rw [if_neg hfs] at heq
      have hnil : freeSpaces cfg ext ≠ [] := by
        intro hc
        exact hfs (by simp [hc])
      cases hw : weightedPopulation (freeSpaces cfg ext) with
      | nil => exact absurd hw (weightedPopulation_ne_nil hnil)
      | cons g gs => rw [hw] at heq; simp at heq

theorem findGuildGo_ok_free (cfg : Config) (seed : Nat) :
    ∀ fuel : Nat, ∀ {s : Store} {ext : ExtState} {g : Guild}
      {s' : Store} {ext' : ExtState},
      findGuildGo cfg seed fuel s ext = (.ok g, s', ext') →
      (cfg.leave_free : Int) < totalFree ext' g := by
  intro fuel
  induction fuel with
  | zero => intro s ext g s' ext' h; simp [findGuildGo] at h
  | succ fuel ih =>
    intro s ext g s' ext' heq
    unfold findGuildGo at heq
    by_cases hfs : (freeSpaces cfg ext).isEmpty
    · rw [if_pos hfs] at heq
      cases ho : oldestRecord s with
      | none => rw [ho] at heq; simp at heq
      | some r =>
        rw [ho] at heq
        obtain ⟨extd, hd⟩ := delete_emoji_of_oldest ho ext
        simp only [hd] at heq
        exact ih heq
    · rw [if_neg hfs] at heq
      have hnil : freeSpaces cfg ext ≠ [] := by
        intro hc
        exact hfs (by simp [hc])
      cases hw : weightedPopulation (freeSpaces cfg ext) with
      | nil => exact absurd hw (weightedPopulation_ne_nil hnil)
      | cons gh gs =>
        rw [hw] at heq
        simp only [Prod.mk.injEq, Except.ok.injEq] at heq
        obtain ⟨hg, -, hext⟩ := heq
        have hmem : g ∈ weightedPopulation (freeSpaces cfg ext) := by
          rw [hw, ← hg]
          exact getD_mem (List.mem_cons_self _ _) _
        obtain ⟨f, hf⟩ := mem_weightedPopulation hmem
        obtain ⟨-, hfe, hlt⟩ := mem_freeSpaces hf
        rw [← hext]
        calc (cfg.leave_free : Int) < f := hlt
          _ = totalFree ext g := hfe

theorem findGuildGo_succ_evict {cfg : Config} {seed fuel : Nat} {s s₁ : Store}
    {ext ext₁ : ExtState} {r : EmojiRecord}
    (hfs : freeSpaces cfg ext = []) (ho : oldestRecord s = some r)
    (hd : delete_emoji r.emojiId s ext = (.ok (), s₁, ext₁)) :
    findGuildGo cfg seed (fuel + 1) s ext = findGuildGo cfg seed fuel s₁ ext₁ := by
  conv_lhs => unfold findGuildGo
  rw [if_pos (by simp [hfs])]
  simp only [ho, hd]

theorem eraseP_id_all_ne {l : List PlatformEmoji} (eid : Nat)
    (hwf : l.Pairwise fun a b => a.id ≠ b.id) :
    ∀ x ∈ l.eraseP (fun e => e.id == eid), x.id ≠ eid := by
  induction l with
  | nil => simp
  | cons a l ih =>
    have ha := List.pairwise_cons.mp hwf
    rw [List.eraseP_cons]
    by_cases hae : a.id = eid
    · simp only [hae, beq_self_eq_true, cond_true]
      intro x hx hc
      exact (ha.1 x hx) (by rw [hae, hc])
    · have : (a.id == eid) = false := by simpa using hae
      simp only [this, cond_false]
      intro x hx
      rw [List.mem_cons] at hx
      rcases hx with rfl | hx
      · exact hae
      · exact ih ha.2 x hx

theorem delete_emoji_ext_all_ne {s : Store} {xt : ExtState} {eid : Nat}
    {u : Unit} {s' : Store} {xt' : ExtState} (hwf : ExtState.wf xt)
    (hd : delete_emoji eid s xt = (.ok u, s', xt')) :
    ∀ e ∈ xt'.emojis, e.id ≠ eid := by
  unfold delete_emoji at hd
  split at hd
  · simp at hd
  · split at hd
    · simp only [Prod.mk.injEq, Except.ok.injEq] at hd
      rw [← hd.2.2]
      exact eraseP_id_all_ne eid hwf
    · rename_i hg
      simp only [Prod.mk.injEq, Except.ok.injEq] at hd
      rw [← hd.2.2]
      intro e he hc
      have hsome : (getEmoji xt eid).isSome := by
        unfold getEmoji
        exact List.find?_isSome.mpr ⟨e, he, by simp [hc]⟩
      rw [hg] at hsome
      simp at hsome

theorem fetch_emoji_error_cases {cfg : Config} {eid now : Nat} {s : Store}
    {ext : ExtState} {e : EmojiError} {s' : Store} {tr : List Event}
    (h : fetch_emoji cfg (some eid) now s ext = (.error e, s', tr)) :
    e = .desynced ∨ e = .notCached eid := by
  simp only [fetch_emoji] at h
  split at h
  · right
    simp only [Prod.mk.injEq, Except.error.injEq] at h
    exact h.1.symm
  · split at h
    · left
      simp only [Prod.mk.injEq, Except.error.injEq] at h
      exact h.1.symm
    · simp at h

/-!
## Concrete states used by witnesses and counterexamples
-/

/-- A pool of one guild with capacity 2. -/
def exGuild : Guild := ⟨1, 2⟩

/-- Configuration with `leave_free = 1`. -/
def exCfg : Config := ⟨[exGuild], 1, ⟨99, 0, false⟩⟩

/-- Configuration with `leave_free = 0`. -/
def exCfg0 : Config := ⟨[exGuild], 0, ⟨99, 0, false⟩⟩

/-- Platform state: one non-animated emoji in the guild. -/
def exExt1 : ExtState := ⟨[⟨10, 1, false⟩]⟩

/-- Platform state: two non-animated emoji in the guild (guild full). -/
def exExt2 : ExtState := ⟨[⟨10, 1, false⟩, ⟨11, 1, false⟩]⟩

/-- Empty store. -/
def exStore0 : Store := ⟨[], []⟩

/-- Store with records for both emoji (10 older than 11) and one owner
binding referencing emoji 10. -/
def exStore2 : Store := ⟨[⟨10, 1, 0⟩, ⟨11, 1, 1⟩], [⟨7, 10⟩]⟩

/-- `exStore2` after emoji 10 is deleted (record and binding gone). -/
def exStoreAfter : Store := ⟨[⟨11, 1, 1⟩], []⟩

/-- `exExt2` after emoji 10 is deleted. -/
def exExtAfter : ExtState := ⟨[⟨11, 1, false⟩]⟩

/-!
## Claim theorems
-/

/-- Claim C1, counterexample: with `leave_free = 1`, a pool whose only
guild has capacity 2 and one used slot (so `used ≠ capacity`) and an
empty record table makes `_find_guild` fail, contradicting the claim
that it fails only when every container is completely full. -/
theorem find_guild_fails_though_not_full :
    find_guild exCfg 0 exStore0 exExt1 = (.error .cacheEmptyAndFull, exStore0, exExt1) ∧
      ¬ ∀ g ∈ exCfg.guilds, usedCount exExt1 g = g.emoji_limit := by
  exact ⟨rfl, by decide⟩

/-- Claim C1 (amended): `_find_guild` fails only with the
unrecoverable-inconsistency error, and only in a state where no asset
record remains to evict and every configured container has at most
`leave_free` free slots (rather than `used == capacity`). -/
theorem find_guild_error_characterisation (cfg : Config) (seed : Nat)
    (s : Store) (ext : ExtState) (e : EmojiError) (s' : Store) (ext' : ExtState)
    (h : find_guild cfg seed s ext = (.error e, s', ext')) :
    e = .cacheEmptyAndFull ∧ s'.emojis = [] ∧
      ∀ g ∈ cfg.guilds, totalFree ext' g ≤ (cfg.leave_free : Int) :=
  findGuildGo_error_spec cfg seed _ (Nat.lt_succ_self _) h

/-- Claim C1 witness: the amended theorem applied to the concrete failing
state of the counterexample. -/
theorem find_guild_error_characterisation_witness :
    EmojiError.cacheEmptyAndFull = EmojiError.cacheEmptyAndFull ∧
      exStore0.emojis = [] ∧
      ∀ g ∈ exCfg.guilds, totalFree exExt1 g ≤ (exCfg.leave_free : Int) :=
  find_guild_error_characterisation exCfg 0 exStore0 exExt1
    .cacheEmptyAndFull exStore0 exExt1 rfl

/-- Claim C2 (confirmed): when the selector evicts the record with the
oldest `last_fetched`, the eviction succeeds and afterwards the platform
holds no emoji with the evicted id, the record table holds no row with
that id, and no owner binding references it (binding removal is the
spec-modelled cascade of the record delete). -/
theorem eviction_purges_asset_record_and_binding (cfg : Config) (s : Store)
    (ext : ExtState) (r : EmojiRecord) (hwf : ExtState.wf ext)
    (_hfs : freeSpaces cfg ext = []) (ho : oldestRecord s = some r) :
    ∃ ext', delete_emoji r.emojiId s ext =
        (.ok (), deleteEmojiRecord s r.emojiId, ext') ∧
      (∀ e ∈ ext'.emojis, e.id ≠ r.emojiId) ∧
      (∀ rec ∈ (deleteEmojiRecord s r.emojiId).emojis, rec.emojiId ≠ r.emojiId) ∧
      (∀ b ∈ (deleteEmojiRecord s r.emojiId).userEmojis, b.emojiId ≠ r.emojiId) := by
  obtain ⟨ext', hd⟩ := delete_emoji_of_oldest ho ext
  refine ⟨ext', hd, delete_emoji_ext_all_ne hwf hd, ?_, ?_⟩
  · intro rec hrec
    simpa using (List.mem_filter.mp hrec).2
  · intro b hb
    simpa using (List.mem_filter.mp hb).2

/-- Claim C2 witness: the eviction of emoji 10 from the full example pool
purges its platform emoji, record and owner binding. -/
theorem eviction_purges_asset_record_and_binding_witness :
    ∃ ext', delete_emoji (10 : Nat) exStore2 exExt2 =
        (.ok (), deleteEmojiRecord exStore2 10, ext') ∧
      (∀ e ∈ ext'.emojis, e.id ≠ 10) ∧
      (∀ rec ∈ (deleteEmojiRecord exStore2 10).emojis, rec.emojiId ≠ 10) ∧
      (∀ b ∈ (deleteEmojiRecord exStore2 10).userEmojis, b.emojiId ≠ 10) :=
  eviction_purges_asset_record_and_binding exCfg exStore2 exExt2 ⟨10, 1, 0⟩
    (by decide) rfl rfl

/-- Claim C3, counterexample: with `leave_free = 1`, one guild of
capacity 2 that is completely full and two cached records, a single call
to `_find_guild` deletes **both** records (the final record table is
empty) before returning the guild — two evictions, not exactly one, even
though every container started at or below `leave_free` and records
existed. -/
theorem selector_single_eviction_falsified :
    freeSpaces exCfg exExt2 = [] ∧ exStore2.emojis.length = 2 ∧
      find_guild exCfg 0 exStore2 exExt2 = (.ok exGuild, ⟨[], []⟩, ⟨[]⟩) := by
  exact ⟨rfl, rfl, rfl⟩

/-- Claim C3 (amended): when every container is at or below `leave_free`
and at least one record exists, at least one eviction occurs, and the
first evicted record is one with the minimum `last_fetched` across all
records (the earliest such row in storage order); the call then retries
from the post-eviction state, so further evictions may follow in the
same call. -/
theorem selector_evicts_oldest_then_retries (cfg : Config) (seed : Nat)
    (s : Store) (ext : ExtState) (r : EmojiRecord)
    (hfs : freeSpaces cfg ext = []) (ho : oldestRecord s = some r) :
    (r ∈ s.emojis ∧ ∀ y ∈ s.emojis, r.lastFetched ≤ y.lastFetched) ∧
    ∃ ext₁, delete_emoji r.emojiId s ext =
        (.ok (), deleteEmojiRecord s r.emojiId, ext₁) ∧
      find_guild cfg seed s ext =
        find_guild cfg seed (deleteEmojiRecord s r.emojiId) ext₁ := by
  refine ⟨oldestRecord_spec ho, ?_⟩
  obtain ⟨ext₁, hd⟩ := delete_emoji_of_oldest ho ext
  refine ⟨ext₁, hd, ?_⟩
  unfold find_guild
  rw [findGuildGo_succ_evict hfs ho hd]
  exact findGuildGo_fuel_congr cfg seed _
    (by have := delete_emoji_ok_length hd; omega) (Nat.lt_succ_self _)

/-- Claim C3 witness: in the full example pool the first eviction hits
record 10 (`last_fetched = 0`, the global minimum). -/
theorem selector_evicts_oldest_then_retries_witness :
    ((⟨10, 1, 0⟩ : EmojiRecord) ∈ exStore2.emojis ∧
      ∀ y ∈ exStore2.emojis, (⟨10, 1, 0⟩ : EmojiRecord).lastFetched ≤ y.lastFetched) ∧
    ∃ ext₁, delete_emoji (⟨10, 1, 0⟩ : EmojiRecord).emojiId exStore2 exExt2 =
        (.ok (), deleteEmojiRecord exStore2 (⟨10, 1, 0⟩ : EmojiRecord).emojiId, ext₁) ∧
      find_guild exCfg 0 exStore2 exExt2 =
        find_guild exCfg 0 (deleteEmojiRecord exStore2 (⟨10, 1, 0⟩ : EmojiRecord).emojiId) ext₁ :=
  selector_evicts_oldest_then_retries exCfg 0 exStore2 exExt2 ⟨10, 1, 0⟩ rfl rfl

/-- Claim C4, counterexample: the eviction path's delete is the same
`delete_emoji` as the public one, so double application is **not** a
no-op: after a first successful delete of emoji 10, a second delete of
the same id raises the `NotCached` `ValueError` instead of doing
nothing. -/
theorem eviction_delete_idempotence_falsified :
    delete_emoji 10 exStore2 exExt2 = (.ok (), exStoreAfter, exExtAfter) ∧
      delete_emoji 10 exStoreAfter exExtAfter =
        (.error (.notCached 10), exStoreAfter, exExtAfter) := by
  exact ⟨rfl, rfl⟩

/-- Claim C4 (amended): `delete_emoji` is non-idempotent at every
boundary — a second delete of the same id always fails with `NotCached`,
on the eviction path as much as on the public one; what is idempotent
inside it is only the external-asset removal: when the record exists but
the platform emoji is already gone, the external delete is skipped and
the call still succeeds, leaving the platform state untouched. -/
theorem delete_emoji_second_fails_external_noop (s : Store) (ext : ExtState)
    (eid : Nat) :
    (∀ u s' ext', delete_emoji eid s ext = (.ok u, s', ext') →
       delete_emoji eid s' ext' = (.error (.notCached eid), s', ext')) ∧
    (∀ r, fetchEmojiRow s eid = some r → getEmoji ext eid = none →
       delete_emoji eid s ext = (.ok (), deleteEmojiRecord s eid, ext)) := by
  constructor
  · intro u s' ext' hd
    unfold delete_emoji at hd
    split at hd
    · simp at hd
    · simp only [Prod.mk.injEq, Except.ok.injEq] at hd
      obtain ⟨-, hs', -⟩ := hd
      unfold delete_emoji
      rw [← hs', fetchEmojiRow_deleteEmojiRecord]
  · intro r hrow hg
    unfold delete_emoji
    rw [hrow, hg]

/-- Claim C4 witness: the two halves of the amended theorem at concrete
states — a repeated delete of emoji 10 fails `NotCached`, and deleting a
record whose platform emoji is absent succeeds without touching the
platform. -/
theorem delete_emoji_second_fails_external_noop_witness :
    delete_emoji 10 exStoreAfter exExtAfter =
        (.error (.notCached 10), exStoreAfter, exExtAfter) ∧
      delete_emoji 10 exStore2 ⟨[]⟩ = (.ok (), deleteEmojiRecord exStore2 10, ⟨[]⟩) :=
  ⟨(delete_emoji_second_fails_external_noop exStore2 exExt2 10).1 () exStoreAfter
      exExtAfter rfl,
    (delete_emoji_second_fails_external_noop exStore2 ⟨[]⟩ 10).2 ⟨10, 1, 0⟩ rfl rfl⟩

/-- Claim C5 (confirmed): fetching a cached record whose platform emoji
has disappeared deletes the record and fails with the `Desynced`
`RuntimeError`; a subsequent fetch of the same id finds no record and
fails with `NotCached`. -/
theorem fetch_emoji_desynced_then_notCached (cfg : Config)
    (eid now now' : Nat) (s : Store) (ext : ExtState) (r : EmojiRecord)
    (hrow : fetchEmojiRow s eid = some r) (hg : getEmoji ext eid = none) :
    fetch_emoji cfg (some eid) now s ext =
      (.error .desynced, deleteEmojiRecord (updateLastFetched s eid now) eid,
       [.fetchRow eid, .updateRecord eid now, .validate eid, .deleteRecord eid]) ∧
    fetchEmojiRow (deleteEmojiRecord (updateLastFetched s eid now) eid) eid = none ∧
    fetch_emoji cfg (some eid) now' (deleteEmojiRecord (updateLastFetched s eid now) eid) ext =
      (.error (.notCached eid),
       deleteEmojiRecord (updateLastFetched s eid now) eid, [.fetchRow eid]) := by
  refine ⟨?_, fetchEmojiRow_deleteEmojiRecord _ _, ?_⟩
  · simp only [fetch_emoji, hrow, hg]
  · simp only [fetch_emoji, fetchEmojiRow_deleteEmojiRecord]

/-- Claim C5 witness: emoji 10 is cached but absent from the platform;
the first fetch purges it with `Desynced`, the second fails
`NotCached`. -/
theorem fetch_emoji_desynced_then_notCached_witness :
    fetch_emoji exCfg (some 10) 5 exStore2 ⟨[]⟩ =
      (.error .desynced, deleteEmojiRecord (updateLastFetched exStore2 10 5) 10,
       [.fetchRow 10, .updateRecord 10 5, .validate 10, .deleteRecord 10]) ∧
    fetchEmojiRow (deleteEmojiRecord (updateLastFetched exStore2 10 5) 10) 10 = none ∧
    fetch_emoji exCfg (some 10) 6 (deleteEmojiRecord (updateLastFetched exStore2 10 5) 10) ⟨[]⟩ =
      (.error (.notCached 10),
       deleteEmojiRecord (updateLastFetched exStore2 10 5) 10, [.fetchRow 10]) :=
  fetch_emoji_desynced_then_notCached exCfg 10 5 6 exStore2 ⟨[]⟩ ⟨10, 1, 0⟩ rfl rfl

/-- Claim C6 (confirmed): whenever `_find_guild` returns a guild, that
guild has strictly more than `leave_free` free non-animated slots in the
platform state at return time, hence strictly positive free count. -/
theorem find_guild_ok_positive_free (cfg : Config) (seed : Nat) (s : Store)
    (ext : ExtState) (g : Guild) (s' : Store) (ext' : ExtState)
    (h : find_guild cfg seed s ext = (.ok g, s', ext')) :
    0 < totalFree ext' g := by
  have hlt := findGuildGo_ok_free cfg seed _ h
  have h0 : (0 : Int) ≤ (cfg.leave_free : Int) := Int.ofNat_nonneg _
  omega

/-- Claim C6 witness: with `leave_free = 0` and one free slot the
selector returns the guild, whose free count is positive. -/
theorem find_guild_ok_positive_free_witness :
    0 < totalFree exExt1 exGuild :=
  find_guild_ok_positive_free exCfg0 0 exStore0 exExt1 exGuild exStore0 exExt1 rfl

/-- Claim C7 (confirmed): `fetch_user_emoji` behaves exactly as the
spec's description of `fetch_owner_asset`: a null owner delegates to
`fetch_emoji None`; an existing binding is fetched, returned on success,
and on `Desynced` failure the stale binding is deleted and a fresh owner
emoji is created; without a binding the owner emoji is created directly
(other failures propagate). -/
theorem fetch_user_emoji_matches_spec (cfg : Config) (user? : Option Nat)
    (now newId seed : Nat) (s : Store) (ext : ExtState) :
    fetch_user_emoji cfg user? now newId seed s ext =
      fetchOwnerAssetSpec cfg user? now newId seed s ext := by
  cases user? with
  | none => rfl
  | some uid =>
    simp only [fetch_user_emoji, fetchOwnerAssetSpec]
    cases hb : fetchUserEmojiRow s uid with
    | none => rfl
    | some b =>
      rcases hf : fetch_emoji cfg (some b.emojiId) now s ext with ⟨res, s1, tr⟩
      cases res with
      | ok e => simp only [hf]
      | error err =>
        simp only [hf]
        rcases fetch_emoji_error_cases hf with rfl | rfl
        · simp [EmojiError.isRuntimeError]
        · simp [EmojiError.isRuntimeError]

/-- Claim C8 (confirmed): on a cache hit the `last_fetched` update is the
second store operation and the external liveness validation the third,
so the update strictly precedes the validation, and it has happened on
every execution that ends in `Desynced`. -/
theorem fetch_emoji_update_before_validate (cfg : Config) (eid now : Nat)
    (s : Store) (ext : ExtState) (r : EmojiRecord)
    (hrow : fetchEmojiRow s eid = some r) :
    (∃ tail, (fetch_emoji cfg (some eid) now s ext).2.2 =
        [.fetchRow eid, .updateRecord eid now, .validate eid] ++ tail) ∧
    ((fetch_emoji cfg (some eid) now s ext).1 = .error .desynced →
       Event.updateRecord eid now ∈ (fetch_emoji cfg (some eid) now s ext).2.2) := by
  simp only [fetch_emoji, hrow]
  cases hg : getEmoji ext eid with
  | none => exact ⟨⟨[.deleteRecord eid], rfl⟩, fun _ => by simp⟩
  | some e0 => exact ⟨⟨[], rfl⟩, fun _ => by simp⟩

/-- Claim C8 witness: a concrete hit on emoji 10 produces the ordered
trace read, update, validate. -/
theorem fetch_emoji_update_before_validate_witness :
    (∃ tail, (fetch_emoji exCfg (some 10) 5 exStore2 exExt2).2.2 =
        [.fetchRow 10, .updateRecord 10 5, .validate 10] ++ tail) ∧
    ((fetch_emoji exCfg (some 10) 5 exStore2 exExt2).1 = .error .desynced →
       Event.updateRecord 10 5 ∈ (fetch_emoji exCfg (some 10) 5 exStore2 exExt2).2.2) :=
  fetch_emoji_update_before_validate exCfg 10 5 exStore2 exExt2 ⟨10, 1, 0⟩ rfl

/-- Claim C9 (confirmed): `fetch_emoji` on a null id returns the
configured not-found sentinel, leaves the store (both tables) exactly as
it was, and performs no store operation at all (empty trace). -/
theorem fetch_emoji_none_sentinel_pure (cfg : Config) (now : Nat) (s : Store)
    (ext : ExtState) :
    fetch_emoji cfg none now s ext = (.ok cfg.not_found, s, []) := rfl

/-- Claim C10 (confirmed): on a well-formed store each recursive retry of
`_find_guild` is preceded by the successful deletion of exactly one
existing record (the record count drops by one, giving termination), and
every call ends either with a guild or with the
unrecoverable-inconsistency error raised when no record remains. -/
theorem find_guild_termination (cfg : Config) (seed : Nat) (s : Store)
    (ext : ExtState) (hwf : Store.wf s) :
    (∀ r, freeSpaces cfg ext = [] → oldestRecord s = some r →
       ∃ ext₁, delete_emoji r.emojiId s ext =
           (.ok (), deleteEmojiRecord s r.emojiId, ext₁) ∧
         (deleteEmojiRecord s r.emojiId).emojis.length + 1 = s.emojis.length ∧
         find_guild cfg seed s ext =
           find_guild cfg seed (deleteEmojiRecord s r.emojiId) ext₁) ∧
    ((∃ g s' ext', find_guild cfg seed s ext = (.ok g, s', ext')) ∨
     (∃ s' ext', find_guild cfg seed s ext = (.error .cacheEmptyAndFull, s', ext') ∧
        s'.emojis = [])) := by
  constructor
  · intro r hfs ho
    obtain ⟨ext₁, hd⟩ := delete_emoji_of_oldest ho ext
    refine ⟨ext₁, hd, ?_, ?_⟩
    · simpa [deleteEmojiRecord] using length_filter_of_wf hwf (oldestRecord_spec ho).1
    · unfold find_guild
      rw [findGuildGo_succ_evict hfs ho hd]
      exact findGuildGo_fuel_congr cfg seed _
        (by have := delete_emoji_ok_length hd; omega) (Nat.lt_succ_self _)
  · rcases hres : find_guild cfg seed s ext with ⟨res, s', ext'⟩
    cases res with
    | ok g => exact Or.inl ⟨g, s', ext', rfl⟩
    | error e =>
      obtain ⟨he, hs', -⟩ := findGuildGo_error_spec cfg seed _ (Nat.lt_succ_self _) hres
      subst he
      exact Or.inr ⟨s', ext', rfl, hs'⟩

/-- Claim C10 witness: the termination theorem at the full example pool
(two records, well-formed store). -/
theorem find_guild_termination_witness :
    (∀ r, freeSpaces exCfg exExt2 = [] → oldestRecord exStore2 = some r →
       ∃ ext₁, delete_emoji r.emojiId exStore2 exExt2 =
           (.ok (), deleteEmojiRecord exStore2 r.emojiId, ext₁) ∧
         (deleteEmojiRecord exStore2 r.emojiId).emojis.length + 1 =
           exStore2.emojis.length ∧
         find_guild exCfg 0 exStore2 exExt2 =
           find_guild exCfg 0 (deleteEmojiRecord exStore2 r.emojiId) ext₁) ∧
    ((∃ g s' ext', find_guild exCfg 0 exStore2 exExt2 = (.ok g, s', ext')) ∨
     (∃ s' ext', find_guild exCfg 0 exStore2 exExt2 =
          (.error .cacheEmptyAndFull, s', ext') ∧ s'.emojis = [])) :=
  find_guild_termination exCfg 0 exStore2 exExt2 (by decide)
